import Mathlib

/-!
Verification of the secret-santa bot core (participants table, pairing
engine, lifecycle commands, rate limiter, message relay) against its
natural-language specification.  The definitions below are a shallow
embedding of `src/database.py` and `src/cogs/secret_santa.py`: the
postgres tables become lists of records, `random.choice` becomes an
oracle stream of naturals, recursion/loops become fuel-indexed
functions, and python exceptions become `Except` / `Option` results.
-/

namespace SecretSanta

/-- A row of the `participants` table (`database.py`, `initialize_database`):
`user_id TEXT UNIQUE, name TEXT, wishlist TEXT, address TEXT,
is_creator BOOLEAN DEFAULT FALSE`.  `NULL`able columns are `Option`. -/
structure Participant where
  user_id : String
  name : String
  wishlist : Option String
  address : Option String
  is_creator : Bool
deriving DecidableEq

/-- A row of the `pairings` table: `giver_id TEXT, receiver_id TEXT`. -/
structure Pairing where
  giver : String
  receiver : String
deriving DecidableEq

/-- The database state the bot manipulates: the two tables. -/
structure DB where
  participants : List Participant
  pairings : List Pairing
deriving DecidableEq

/-- `DatabaseManager.is_event_active`: `SELECT COUNT(*) FROM participants`,
true iff the count is positive. -/
def is_event_active (db : DB) : Bool :=
  decide (0 < db.participants.length)

/-- `DatabaseManager.is_creator_or_admin`: `SELECT is_creator FROM
participants WHERE user_id = %s`; `bool(result and result[0])`. -/
def is_creator_or_admin (db : DB) (uid : String) : Bool :=
  match db.participants.find? (fun p => p.user_id == uid) with
  | some p => p.is_creator
  | none => false

/-- `DatabaseManager.add_participant`: `INSERT INTO participants (user_id,
name, is_creator) VALUES (...) ON CONFLICT (user_id) DO UPDATE SET
name = EXCLUDED.name, is_creator = EXCLUDED.is_creator`.  On conflict the
row keeps its wishlist/address and takes the new name and creator flag. -/
def add_participant (db : DB) (uid nm : String) (isC : Bool) : DB :=
  if db.participants.any (fun p => p.user_id == uid) then
    { db with participants := db.participants.map (fun p =>
        if p.user_id == uid then { p with name := nm, is_creator := isC } else p) }
  else
    { db with participants := db.participants ++ [⟨uid, nm, none, none, isC⟩] }

/-- `DatabaseManager.set_wishlist`: `UPDATE participants SET wishlist = %s
WHERE user_id = %s`. -/
def set_wishlist (db : DB) (uid w : String) : DB :=
  { db with participants := db.participants.map (fun p =>
      if p.user_id == uid then { p with wishlist := some w } else p) }

/-- `DatabaseManager.set_address`: `UPDATE participants SET address = %s
WHERE user_id = %s`. -/
def set_address (db : DB) (uid a : String) : DB :=
  { db with participants := db.participants.map (fun p =>
      if p.user_id == uid then { p with address := some a } else p) }

/-- `DatabaseManager.cancel_secret_santa`: `DELETE FROM pairings; DELETE
FROM participants`. -/
def cancel_secret_santa (_db : DB) : DB :=
  ⟨[], []⟩

/-- One entry of `DatabaseManager.check_missing_info`'s result. -/
structure MissingInfo where
  user_id : String
  name : String
  missing_wishlist : Bool
  missing_address : Bool
deriving DecidableEq

/-- `DatabaseManager.check_missing_info`: `SELECT user_id, name, wishlist,
address FROM participants WHERE wishlist IS NULL OR address IS NULL`,
each row tagged with which of the two fields is `NULL`. -/
def check_missing_info (db : DB) : List MissingInfo :=
  (db.participants.filter (fun p => p.wishlist.isNone || p.address.isNone)).map
    (fun p => ⟨p.user_id, p.name, p.wishlist.isNone, p.address.isNone⟩)

/-! ## The pairing engine (`DatabaseManager.assign_partners`)

`random.choice(valid_receivers)` is modelled by an oracle stream
`c : ℕ → ℕ`: the `t`-th call returns element `c t % valid.length` of the
candidate list, so every sequence of outcomes the PRNG could produce is
some stream.  The unbounded restart recursion (`return
self.assign_partners(participants)`) is indexed by `fuel`: `none` means
the run did not finish within `fuel` whole attempts (or that the
`ValueError` guard for fewer than two participants fired). -/

/-- One pass of the `for giver in participants` loop of `assign_partners`:
for each giver filter the remaining `receivers` pool to exclude the giver,
fail (restart) if the pool is empty, otherwise pick the `c t % length`-th
candidate, remove it from the pool and record the pairing.  Returns the
pairings of the pass (or `none` at a dead end) together with how many
oracle values were consumed. -/
def pass_attempt (c : ℕ → ℕ) : ℕ → List Participant → List Participant →
    Option (List Pairing) × ℕ
  | t, [], _ => (some [], t)
  | t, giver :: rest, receivers =>
    match receivers.filter (fun r => r.user_id != giver.user_id) with
    | [] => (none, t)
    | v :: vs =>
      let receiver := (v :: vs).get ⟨c t % (v :: vs).length, Nat.mod_lt _ (Nat.succ_pos vs.length)⟩
      match pass_attempt c (t + 1) rest (receivers.erase receiver) with
      | (some ps, t') => (some (⟨giver.user_id, receiver.user_id⟩ :: ps), t')
      | (none, t') => (none, t')

/-- The restart loop of `assign_partners`: run whole passes over the
original participant list until one succeeds, up to `fuel` attempts. -/
def assign_partners_loop (c : ℕ → ℕ) (participants : List Participant) :
    ℕ → ℕ → Option (List Pairing)
  | 0, _ => none
  | fuel + 1, t =>
    match pass_attempt c t participants participants with
    | (some ps, _) => some ps
    | (none, t') => assign_partners_loop c participants fuel t'

/-- `DatabaseManager.assign_partners`: raises `ValueError` (here `none`)
for fewer than two participants, otherwise runs the restart loop. -/
def assign_partners (c : ℕ → ℕ) (fuel t : ℕ) (participants : List Participant) :
    Option (List Pairing) :=
  if participants.length < 2 then none
  else assign_partners_loop c participants fuel t

/-- `assign_partners` also persists its result: `DELETE FROM pairings`
followed by one `INSERT` per pairing, committed at the end of the
successful pass. -/
def db_assign_partners (db : DB) (c : ℕ → ℕ) (fuel t : ℕ) :
    Option (DB × List Pairing) :=
  match assign_partners c fuel t db.participants with
  | some ps => some ({ db with pairings := ps }, ps)
  | none => none

/-! ## The lifecycle commands (`cogs/secret_santa.py`)

Each command handler is a function from the database state (plus the
caller facts the discord layer supplies: the caller's id, name, and
whether they hold the administrator permission) to either an error — the
user-facing rejection message branch taken — or the updated state. -/

/-- The rejection branches of the command handlers. -/
inductive CmdError
  | notAuthorized
  | noActiveEvent
  | eventAlreadyActive
  | cannotRemoveCreator
  | targetNotFound
  | notAParticipant
  | tooFewParticipants
  | missingInfo (report : List MissingInfo)
deriving DecidableEq

/-- `create_secret_santa`: rejected while an event is active, otherwise
adds the caller as first participant with `is_creator=True`. -/
def create_secret_santa (db : DB) (uid nm : String) : Except CmdError DB :=
  if !is_event_active db then Except.ok (add_participant db uid nm true)
  else Except.error CmdError.eventAlreadyActive

/-- `join_secret_santa`: rejected when no event is active, otherwise
`add_participant(user_id, name)` with the default `is_creator=False` —
also when the caller is the event's creator. -/
def join_secret_santa (db : DB) (uid nm : String) : Except CmdError DB :=
  if !is_event_active db then Except.error CmdError.noActiveEvent
  else Except.ok (add_participant db uid nm false)

/-- Modelled from the spec: `DatabaseManager.remove_participant` is called
by the `remove` command but is absent from the sources (`database.py` has
no such method); spec §4.1/§4.3: on success it deletes that Participant
row, and reports whether the target was a participant at all. -/
def db_remove_participant (db : DB) (uid : String) : Bool × DB :=
  if db.participants.any (fun p => p.user_id == uid) then
    (true, { db with participants := db.participants.filter (fun p => p.user_id != uid) })
  else
    (false, db)

/-- `remove_participant` (the `s!remove` handler), with the target already
resolved to a user id (the mention / numeric-id paths of the handler):
requires an admin or creator caller and an active event, refuses when the
target is the creator, otherwise removes the target. -/
def remove_participant_cmd (db : DB) (caller_is_admin : Bool)
    (caller_id target_id : String) : Except CmdError DB :=
  if !(caller_is_admin || is_creator_or_admin db caller_id) then
    Except.error CmdError.notAuthorized
  else if !is_event_active db then Except.error CmdError.noActiveEvent
  else if is_creator_or_admin db target_id then
    Except.error CmdError.cannotRemoveCreator
  else
    let res := db_remove_participant db target_id
    if res.1 then Except.ok res.2 else Except.error CmdError.notAParticipant

/-- The validation phase of `start_secret_santa`, in handler order:
authorization, `len(participants) < 2`, then `check_missing_info`; only
when all pass does the handler reach `assign_partners`. -/
def start_validate (db : DB) (caller_is_admin : Bool) (caller_id : String) :
    Except CmdError (List Participant) :=
  if !(caller_is_admin || is_creator_or_admin db caller_id) then
    Except.error CmdError.notAuthorized
  else if db.participants.length < 2 then Except.error CmdError.tooFewParticipants
  else if check_missing_info db ≠ [] then
    Except.error (CmdError.missingInfo (check_missing_info db))
  else Except.ok db.participants

/-- `start_secret_santa` up to (and including) the first invocation of the
pairing engine; `gen` stands for the pairing list the engine would
produce.  On any validation failure the handler returns before touching
the `pairings` table; on success `assign_partners` replaces it. -/
def start_secret_santa (db : DB) (caller_is_admin : Bool) (caller_id : String)
    (gen : List Pairing) : DB × Option CmdError :=
  match start_validate db caller_is_admin caller_id with
  | Except.error e => (db, some e)
  | Except.ok _ => ({ db with pairings := gen }, none)

/-- What `_show_potential_matches` can report back to the confirmation
loop in `start_secret_santa`: the creator answered yes, answered no, or
the five-minute `asyncio.TimeoutError` fired (the function returns
`False` in that case, exactly as for a "no"). -/
inductive ConfirmResp
  | yes
  | no
  | timeout
deriving DecidableEq

/-- The `while not matches_approved` confirmation loop of
`start_secret_santa`.  At iteration `i` the engine's output is `gen i`
(immediately persisted, since `assign_partners` commits before the
matches are shown) and the creator's reaction is `resp i`.  A `yes` ends
the loop with the current pairings kept; both `no` and `timeout` make the
loop regenerate.  `fuel` bounds the iterations; `none` means the loop was
still running. -/
def start_confirm_loop (gen : ℕ → List Pairing) (resp : ℕ → ConfirmResp) :
    ℕ → ℕ → DB → Option (DB × List Pairing)
  | 0, _, _ => none
  | fuel + 1, i, db =>
    let db' := { db with pairings := gen i }
    match resp i with
    | ConfirmResp.yes => some (db', gen i)
    | ConfirmResp.no => start_confirm_loop gen resp fuel (i + 1) db'
    | ConfirmResp.timeout => start_confirm_loop gen resp fuel (i + 1) db'

/-- System state: the database plus whether a `start` confirmation wait is
currently suspended (`bot.wait_for` pending in `_show_potential_matches`).
The flag is observational — no command handler in the code consults it. -/
structure SysState where
  db : DB
  confirming : Bool
deriving DecidableEq

/-- Dispatch of `s!join` while the rest of the system is in an arbitrary
lifecycle position: the handler runs exactly `join_secret_santa` on the
store, whatever the confirmation flag says. -/
def dispatch_join (s : SysState) (uid nm : String) : Except CmdError SysState :=
  match join_secret_santa s.db uid nm with
  | Except.ok db' => Except.ok ⟨db', s.confirming⟩
  | Except.error e => Except.error e

/-! ## The rate limiter (`_check_rate_limit`)

`time.time()` values are rationals; python's `int()` truncates toward
zero. -/

/-- Python `int(q)`: truncation toward zero. -/
def pyInt (q : ℚ) : ℤ := if 0 ≤ q then ⌊q⌋ else ⌈q⌉

/-- The cog fields driving `_check_rate_limit`: the runtime-mutable
configuration and `user_command_history` (a `defaultdict(list)`, so every
caller starts at `[]`). -/
structure RateLimiter where
  rate_limit_enabled : Bool
  rate_limit_commands : ℕ
  rate_limit_window : ℚ
  user_command_history : String → List ℚ

/-- `_check_rate_limit(user_id)` at time `now`.  Returns
`(is_limited, seconds_remaining)` and the updated cog state: disabled →
`(False, 0)` untouched; otherwise old entries are evicted (and the
cleaned list stored), then either the caller is limited — with
`max(1, int(window - (now - oldest)))` — or `now` is appended and the
caller passes.  (`min` of the cleaned list is total here via `getD 0`:
in the limited branch the list has at least `rate_limit_commands ≥ 1`
entries.) -/
def check_rate_limit (st : RateLimiter) (uid : String) (now : ℚ) :
    (Bool × ℤ) × RateLimiter :=
  if !st.rate_limit_enabled then ((false, 0), st)
  else
    let cleaned := (st.user_command_history uid).filter
      (fun t => now - t < st.rate_limit_window)
    if st.rate_limit_commands ≤ cleaned.length then
      let oldest := cleaned.min?.getD 0
      let seconds := pyInt (st.rate_limit_window - (now - oldest))
      ((true, max 1 seconds),
       { st with user_command_history :=
          fun u => if u = uid then cleaned else st.user_command_history u })
    else
      ((false, 0),
       { st with user_command_history :=
          fun u => if u = uid then cleaned ++ [now] else st.user_command_history u })

/-- The limiter state the cog starts with: enabled, 5 commands per 30
seconds, empty history. -/
def initial_rate_limiter : RateLimiter :=
  ⟨true, 5, 30, fun _ => []⟩

/-- A sequence of `_check_rate_limit` invocations by one caller at the
given times, keeping the state each returns. -/
def run_checks (st : RateLimiter) (uid : String) (ts : List ℚ) : RateLimiter :=
  ts.foldl (fun s t => (check_rate_limit s uid t).2) st

/-! ## The anonymous message relay -/

/-- `_format_message_notification(message, is_from_gifter)`: a role-labeled
preamble, the text, and a reply hint naming the inverse direction. -/
def format_message_notification (message : String) (is_from_gifter : Bool) : String :=
  let preamble := if is_from_gifter then "🎁 Your Secret Santa sent you a message:"
    else "🎄 Your giftee sent you a message:"
  let reply_cmd := if is_from_gifter then "s!message gifter" else "s!message giftee"
  preamble ++ "\n\n" ++ message ++ "\n\n" ++
    "To reply, use: `" ++ reply_cmd ++ " <your message>`"

/-- The two directions of `send_anonymous_message`. -/
inductive Direction
  | toGifter
  | toGiftee
deriving DecidableEq

/-- The text `send_anonymous_message` hands to the transport for delivery
to the counterpart: messages to the caller's gifter are formatted with
`is_from_gifter=False`, messages to the caller's giftee with
`is_from_gifter=True`.  The sender's identity (`ctx.author`) flows only
into the log line, never into the delivered text. -/
def relay_delivered_text (_sender_id : String) (dir : Direction)
    (message : String) : String :=
  match dir with
  | Direction.toGifter => format_message_notification message false
  | Direction.toGiftee => format_message_notification message true

/-- How many participants of the store carry the creator flag. -/
def creator_count (db : DB) : ℕ :=
  (db.participants.filter (fun p => p.is_creator)).length

/-! ## Concrete participants used to exercise the commands -/

/-- A three-element participant set: `demo_a` opened the event. -/
def demo_a : Participant := ⟨"a", "A", some "wa", some "aa", true⟩

def demo_b : Participant := ⟨"b", "B", some "wb", some "ab", false⟩

def demo_c : Participant := ⟨"c", "C", some "wc", some "ac", false⟩

/-- A store holding the two complete participants `a` (creator) and `b`. -/
def demo_store : DB := ⟨[demo_a, demo_b], []⟩

/-- The system mid-confirmation: `a` ran `start`, the swap pairing was
generated and shown, and the five-minute wait for yes/no is pending. -/
def demo_confirming : SysState :=
  ⟨⟨[demo_a, demo_b], [⟨"a", "b"⟩, ⟨"b", "a"⟩]⟩, true⟩

/-- A store where participant `b` has not set a wishlist. -/
def demo_missing_store : DB :=
  ⟨[demo_a, ⟨"b", "B", none, some "ab", false⟩], []⟩

/-! ## Derangement property of a successful pass -/

/-- Specification of one pass: on success the givers column is exactly the
giver list (in order), the receivers column is drawn without repetition
from the receiver pool, one pairing is produced per giver, and no pairing
is a self-pairing. -/
theorem pass_attempt_spec (c : ℕ → ℕ) :
    ∀ (givers : List Participant) (t : ℕ) (receivers : List Participant)
      (l : List Pairing) (t' : ℕ),
    pass_attempt c t givers receivers = (some l, t') →
    l.map Pairing.giver = givers.map Participant.user_id ∧
    (↑(l.map Pairing.receiver) : Multiset String) ≤
      ↑(receivers.map Participant.user_id) ∧
    l.length = givers.length ∧
    ∀ pr ∈ l, pr.giver ≠ pr.receiver := by
  intro givers
  induction givers with
  | nil =>
    intro t receivers l t' h
    simp only [pass_attempt, Prod.mk.injEq, Option.some.injEq] at h
    obtain ⟨hl, -⟩ := h
    subst hl
    simp
  | cons g rest ih =>
    intro t receivers l t' h
    rw [pass_attempt] at h
    rcases hfil : receivers.filter (fun r => r.user_id != g.user_id) with _ | ⟨v, vs⟩
    · rw [hfil] at h
      simp at h
    · rw [hfil] at h
      simp only at h
      set R := (v :: vs).get ⟨c t % (v :: vs).length, Nat.mod_lt _ (Nat.succ_pos vs.length)⟩
        with hRdef
      rcases hrec : pass_attempt c (t + 1) rest (receivers.erase R) with ⟨o, t2⟩
      rw [hrec] at h
      cases o with
      | none => simp at h
      | some ps =>
        simp only [Prod.mk.injEq, Option.some.injEq] at h
        obtain ⟨hl, -⟩ := h
        subst hl
        obtain ⟨ih1, ih2, ih3, ih4⟩ := ih (t + 1) (receivers.erase R) ps t2 hrec
        have hRmem' : R ∈ v :: vs := List.get_mem _ _ _
        have hRfil : R ∈ receivers.filter (fun r => r.user_id != g.user_id) := by
          rw [hfil]; exact hRmem'
        have hRrec : R ∈ receivers := (List.mem_filter.mp hRfil).1
        have hRne : R.user_id ≠ g.user_id := by
          have := (List.mem_filter.mp hRfil).2
          simpa [bne_iff_ne] using this
        refine ⟨?_, ?_, ?_, ?_⟩
        · simp [ih1]
        · have hperm : List.Perm (receivers.map Participant.user_id)
              (R.user_id :: (receivers.erase R).map Participant.user_id) :=
            (List.perm_cons_erase hRrec).map Participant.user_id
          have hstep : List.map Pairing.receiver
              ({ giver := g.user_id, receiver := R.user_id } :: ps) =
              R.user_id :: List.map Pairing.receiver ps := rfl
          rw [hstep, ← Multiset.cons_coe, Multiset.coe_eq_coe.mpr hperm,
            ← Multiset.cons_coe]
          exact Multiset.cons_le_cons _ ih2
        · simp only [List.length_cons, ih3]
        · intro pr hpr
          rcases List.mem_cons.mp hpr with hpr | hpr
          · subst hpr
            exact fun hEq => hRne hEq.symm
          · exact ih4 pr hpr

/-- Specification of the whole engine: whenever `assign_partners` returns a
pairing list (for any oracle stream, fuel and stream position), that list
pairs every participant as giver exactly in list order, its receivers are a
permutation of the participant ids, and it has no self-pairing. -/
theorem assign_partners_spec (c : ℕ → ℕ) (fuel t : ℕ)
    (ps : List Participant) (l : List Pairing)
    (h : assign_partners c fuel t ps = some l) :
    l.map Pairing.giver = ps.map Participant.user_id ∧
    (l.map Pairing.receiver).Perm (ps.map Participant.user_id) ∧
    ∀ pr ∈ l, pr.giver ≠ pr.receiver := by
  rw [assign_partners] at h
  split at h
  · exact absurd h (by simp)
  · clear * - h
    induction fuel generalizing t with
    | zero => simp [assign_partners_loop] at h
    | succ fuel ih =>
      rw [assign_partners_loop] at h
      rcases hp : pass_attempt c t ps ps with ⟨o, t1⟩
      rw [hp] at h
      cases o with
      | some l' =>
        simp only [Option.some.injEq] at h
        subst h
        obtain ⟨h1, h2, h3, h4⟩ := pass_attempt_spec c ps t ps l' t1 hp
        refine ⟨h1, ?_, h4⟩
        have hcard : (↑(ps.map Participant.user_id) : Multiset String).card ≤
            (↑(l'.map Pairing.receiver) : Multiset String).card := by
          simp [h3]
        have := Multiset.eq_of_le_of_card_le h2 hcard
        exact Multiset.coe_eq_coe.mp this
      | none => exact ih t1 h

/-- Under the oracle stream that always answers 0 (every `random.choice`
returns the first candidate), a pass over three participants always dead
ends: the third giver is left facing only itself. -/
theorem pass_attempt_zero_stream_stuck (t : ℕ) :
    pass_attempt (fun _ => 0) t [demo_a, demo_b, demo_c] [demo_a, demo_b, demo_c] =
      (none, t + 2) := rfl

/-- Hence the restart loop never returns under that stream, whatever the
fuel. -/
theorem assign_partners_loop_zero_stream (fuel : ℕ) :
    ∀ t, assign_partners_loop (fun _ => 0) [demo_a, demo_b, demo_c] fuel t = none := by
  induction fuel with
  | zero => intro t; rfl
  | succ n ih =>
    intro t
    rw [assign_partners_loop, pass_attempt_zero_stream_stuck]
    exact ih (t + 2)

/-- C1 counterexample: for the three-participant set `{a, b, c}` there is a
sequence of random choices (always take the first valid candidate) on
which `assign_partners` restarts forever: it returns no pairing list for
any number of attempts.  So termination for every participant set with
`N ≥ 2` fails. -/
theorem assign_partners_nontermination :
    ¬ ∃ fuel l, assign_partners (fun _ => 0) fuel 0 [demo_a, demo_b, demo_c] = some l := by
  rintro ⟨fuel, l, h⟩
  rw [assign_partners] at h
  rw [if_neg (by simp)] at h
  rw [assign_partners_loop_zero_stream fuel 0] at h
  exact Option.noConfusion h

/-- C1 (amended): whenever `assign_partners` terminates with a pairing
list — for any distinct-id participant set with `N ≥ 2` and any sequence
of random choices — that list is a derangement of the set: every
participant id occurs exactly once in the giver column and exactly once in
the receiver column, both columns only mention participant ids, and no
pairing is a self-pairing. -/
theorem assign_partners_derangement (c : ℕ → ℕ) (fuel t : ℕ)
    (ps : List Participant) (l : List Pairing)
    (hnd : (ps.map Participant.user_id).Nodup)
    (h : assign_partners c fuel t ps = some l) :
    (∀ uid ∈ ps.map Participant.user_id,
      (l.map Pairing.giver).count uid = 1 ∧
      (l.map Pairing.receiver).count uid = 1) ∧
    (∀ pr ∈ l, pr.giver ∈ ps.map Participant.user_id ∧
      pr.receiver ∈ ps.map Participant.user_id) ∧
    (∀ pr ∈ l, pr.giver ≠ pr.receiver) := by
  obtain ⟨h1, h2, h3⟩ := assign_partners_spec c fuel t ps l h
  refine ⟨?_, ?_, h3⟩
  · intro uid hm
    constructor
    · rw [h1]
      exact List.count_eq_one_of_mem hnd hm
    · rw [h2.count_eq]
      exact List.count_eq_one_of_mem hnd hm
  · intro pr hpr
    constructor
    · rw [← h1]
      exact List.mem_map_of_mem Pairing.giver hpr
    · rw [← h2.mem_iff]
      exact List.mem_map_of_mem Pairing.receiver hpr

/-- Witness for `assign_partners_derangement`: the two-participant run
`{a, b}` under the all-zero stream returns the mutual swap, and the
theorem's conclusions hold for it. -/
theorem assign_partners_derangement_witness :
    (∀ uid ∈ [demo_a, demo_b].map Participant.user_id,
      (([⟨"a", "b"⟩, ⟨"b", "a"⟩] : List Pairing).map Pairing.giver).count uid = 1 ∧
      (([⟨"a", "b"⟩, ⟨"b", "a"⟩] : List Pairing).map Pairing.receiver).count uid = 1) ∧
    (∀ pr ∈ ([⟨"a", "b"⟩, ⟨"b", "a"⟩] : List Pairing),
      pr.giver ∈ [demo_a, demo_b].map Participant.user_id ∧
      pr.receiver ∈ [demo_a, demo_b].map Participant.user_id) ∧
    (∀ pr ∈ ([⟨"a", "b"⟩, ⟨"b", "a"⟩] : List Pairing), pr.giver ≠ pr.receiver) :=
  assign_partners_derangement (fun _ => 0) 1 0 [demo_a, demo_b]
    [⟨"a", "b"⟩, ⟨"b", "a"⟩] (by decide) (by decide)

/-- C2: for a participant set of exactly two participants with distinct
ids, `assign_partners` produces exactly the mutual swap, for every oracle
stream (every possible sequence of random choices), every positive fuel
and every stream position. -/
theorem two_participants_mutual_swap (a b : Participant)
    (h : a.user_id ≠ b.user_id) (c : ℕ → ℕ) (fuel t : ℕ) :
    assign_partners c (fuel + 1) t [a, b] =
      some [⟨a.user_id, b.user_id⟩, ⟨b.user_id, a.user_id⟩] := by
  have hne : a ≠ b := fun hh => h (congrArg Participant.user_id hh)
  have hba : (b.user_id != a.user_id) = true := bne_iff_ne.mpr (Ne.symm h)
  have hab : (a.user_id != b.user_id) = true := bne_iff_ne.mpr h
  have hpass : pass_attempt c t [a, b] [a, b] =
      (some [⟨a.user_id, b.user_id⟩, ⟨b.user_id, a.user_id⟩], t + 2) := by
    simp [pass_attempt, List.filter, bne_self_eq_false, hba, hab,
      Nat.mod_one, List.erase_cons, hne, List.get]
  rw [assign_partners, if_neg (by simp), assign_partners_loop, hpass]

/-- Witness for `two_participants_mutual_swap` at the concrete pair
`{a, b}`, the all-zero stream, fuel 1 and position 0. -/
theorem two_participants_mutual_swap_witness :
    assign_partners (fun _ => 0) 1 0 [demo_a, demo_b] =
      some [⟨demo_a.user_id, demo_b.user_id⟩, ⟨demo_b.user_id, demo_a.user_id⟩] :=
  two_participants_mutual_swap demo_a demo_b (by decide) (fun _ => 0) 0 0

/-! ## The confirmation loop on timeout (C3) -/

/-- C3: when the five-minute confirmation wait times out on the first
pairing set, the `start` handler does not abort back to `Forming`: the
loop treats the timeout exactly like a rejection, generates a second
pairing set inside the same `start` invocation and, on the following
`yes`, finishes with that second set persisted.  At no point are the
generated pairings discarded — after the timed-out iteration the store
already holds the first set. -/
theorem confirm_timeout_regenerates :
    start_confirm_loop
        (fun i => if i = 0 then [⟨"a", "b"⟩, ⟨"b", "c"⟩, ⟨"c", "a"⟩]
          else [⟨"a", "c"⟩, ⟨"c", "b"⟩, ⟨"b", "a"⟩])
        (fun i => if i = 0 then ConfirmResp.timeout else ConfirmResp.yes)
        2 0 ⟨[demo_a, demo_b, demo_c], []⟩ =
      some (⟨[demo_a, demo_b, demo_c], [⟨"a", "c"⟩, ⟨"c", "b"⟩, ⟨"b", "a"⟩]⟩,
        [⟨"a", "c"⟩, ⟨"c", "b"⟩, ⟨"b", "a"⟩]) ∧
    ([⟨"a", "c"⟩, ⟨"c", "b"⟩, ⟨"b", "a"⟩] : List Pairing) ≠
      [⟨"a", "b"⟩, ⟨"b", "c"⟩, ⟨"c", "a"⟩] := by
  constructor
  · rfl
  · decide

/-! ## Removing a participant (C4) -/

/-- C4: with an authorized caller and an active event, `remove` of the
creator always fails (nothing is removed), while `remove` of any
non-creator participant succeeds; afterwards the removed id is in neither
the participant set nor any pairing list the engine subsequently
generates from it. -/
theorem remove_participant_cmd_spec (db : DB) (adm : Bool) (cid tid : String)
    (hauth : (adm || is_creator_or_admin db cid) = true)
    (hactive : is_event_active db = true) :
    (is_creator_or_admin db tid = true →
      remove_participant_cmd db adm cid tid =
        Except.error CmdError.cannotRemoveCreator) ∧
    (is_creator_or_admin db tid = false →
      ∀ p ∈ db.participants, p.user_id = tid →
        remove_participant_cmd db adm cid tid = Except.ok
          { db with participants :=
              db.participants.filter (fun q => q.user_id != tid) } ∧
        (∀ q ∈ db.participants.filter (fun q => q.user_id != tid),
          q.user_id ≠ tid) ∧
        (∀ c fuel t l,
          assign_partners c fuel t
            (db.participants.filter (fun q => q.user_id != tid)) = some l →
          ∀ pr ∈ l, pr.giver ≠ tid ∧ pr.receiver ≠ tid)) := by
  constructor
  · intro hcr
    simp [remove_participant_cmd, hauth, hactive, hcr]
  · intro hcr p hp hpid
    have hany : db.participants.any (fun q => q.user_id == tid) = true :=
      List.any_eq_true.mpr ⟨p, hp, by simp [hpid]⟩
    refine ⟨?_, ?_, ?_⟩
    · simp [remove_participant_cmd, hauth, hactive, hcr, db_remove_participant, hany]
    · intro q hq
      have := (List.mem_filter.mp hq).2
      simpa [bne_iff_ne] using this
    · intro c fuel t l hl pr hpr
      obtain ⟨h1, h2, -⟩ := assign_partners_spec c fuel t _ l hl
      constructor
      · have hg : pr.giver ∈ (db.participants.filter
            (fun q => q.user_id != tid)).map Participant.user_id := by
          rw [← h1]
          exact List.mem_map_of_mem Pairing.giver hpr
        obtain ⟨q, hq, hqe⟩ := List.mem_map.mp hg
        have hqt : q.user_id ≠ tid := by
          have := (List.mem_filter.mp hq).2
          simpa [bne_iff_ne] using this
        exact hqe ▸ hqt
      · have hr : pr.receiver ∈ (db.participants.filter
            (fun q => q.user_id != tid)).map Participant.user_id := by
          rw [← h2.mem_iff]
          exact List.mem_map_of_mem Pairing.receiver hpr
        obtain ⟨q, hq, hqe⟩ := List.mem_map.mp hr
        have hqt : q.user_id ≠ tid := by
          have := (List.mem_filter.mp hq).2
          simpa [bne_iff_ne] using this
        exact hqe ▸ hqt

/-- Witness for `remove_participant_cmd_spec`: both conclusions at the
two-participant store — removing the creator `"a"` fails, removing the
non-creator `"b"` succeeds and excludes `"b"` from everything after. -/
theorem remove_participant_cmd_spec_witness :
    (is_creator_or_admin demo_store "a" = true →
      remove_participant_cmd demo_store true "a" "a" =
        Except.error CmdError.cannotRemoveCreator) ∧
    (is_creator_or_admin demo_store "b" = false →
      ∀ p ∈ demo_store.participants, p.user_id = "b" →
        remove_participant_cmd demo_store true "a" "b" = Except.ok
          { demo_store with participants :=
              demo_store.participants.filter (fun q => q.user_id != "b") } ∧
        (∀ q ∈ demo_store.participants.filter (fun q => q.user_id != "b"),
          q.user_id ≠ "b") ∧
        (∀ c fuel t l,
          assign_partners c fuel t
            (demo_store.participants.filter (fun q => q.user_id != "b")) = some l →
          ∀ pr ∈ l, pr.giver ≠ "b" ∧ pr.receiver ≠ "b")) :=
  ⟨(remove_participant_cmd_spec demo_store true "a" "a"
      (by decide) (by decide)).1,
   (remove_participant_cmd_spec demo_store true "a" "b"
      (by decide) (by decide)).2⟩

/-! ## The creator flag under re-joining (C5) -/

/-- C5 counterexample: the store starts with exactly one creator, but when
the creator runs `join` — which calls `add_participant` with the default
`is_creator=False` — the `ON CONFLICT ... DO UPDATE` overwrites their
creator flag, leaving zero creators.  The one-creator invariant is not
preserved by every operation. -/
theorem creator_rejoin_demotes :
    creator_count demo_store = 1 ∧
    join_secret_santa demo_store "a" "A" =
      Except.ok ⟨[⟨"a", "A", some "wa", some "aa", false⟩, demo_b], []⟩ ∧
    creator_count ⟨[⟨"a", "A", some "wa", some "aa", false⟩, demo_b], []⟩ = 0 :=
  ⟨rfl, rfl, rfl⟩

/-- The upsert keeps every row's id unchanged (in-place update case). -/
theorem add_participant_ids (db : DB) (uid nm : String) (isC : Bool) :
    (add_participant db uid nm isC).participants.map Participant.user_id =
        db.participants.map Participant.user_id ∨
    ((add_participant db uid nm isC).participants.map Participant.user_id =
        db.participants.map Participant.user_id ++ [uid] ∧
      uid ∉ db.participants.map Participant.user_id) := by
  unfold add_participant
  by_cases hany : db.participants.any (fun p => p.user_id == uid) = true
  · left
    rw [if_pos hany]
    simp only [List.map_map]
    refine List.map_congr_left ?_
    intro p _
    by_cases h : p.user_id = uid <;> simp [h]
  · right
    rw [if_neg hany]
    constructor
    · simp
    · intro hmem
      obtain ⟨p, hp, hpe⟩ := List.mem_map.mp hmem
      exact hany (List.any_eq_true.mpr ⟨p, hp, by simp [hpe]⟩)

/-- `creator_count` after an upsert that hit an existing row, expressed
over the original rows. -/
theorem creator_count_update (db : DB) (uid nm : String) (isC : Bool)
    (hany : db.participants.any (fun p => p.user_id == uid) = true) :
    creator_count (add_participant db uid nm isC) =
      List.countP (fun q => if q.user_id == uid then isC else q.is_creator)
        db.participants := by
  unfold creator_count add_participant
  rw [if_pos hany]
  simp only [← List.countP_eq_length_filter, List.countP_map]
  refine List.countP_congr ?_
  intro p _
  by_cases h : (p.user_id == uid) = true <;> simp [h, Function.comp]

/-- Demoting the unique row carrying `uid` loses exactly its creator
flag. -/
theorem countP_demote_creator (uid : String) :
    ∀ (l : List Participant), (l.map Participant.user_id).Nodup →
    ∀ p ∈ l, p.user_id = uid → p.is_creator = true →
    List.countP (fun q => if q.user_id == uid then false else q.is_creator) l + 1 =
      List.countP (fun q => q.is_creator) l := by
  intro l
  induction l with
  | nil => intro _ p hp; cases hp
  | cons a rest ih =>
    intro hnd p hp hpid hcr
    rw [List.map_cons, List.nodup_cons] at hnd
    rcases List.mem_cons.mp hp with rfl | hp'
    · have ha : (p.user_id == uid) = true := by simp [hpid]
      have hrest : List.countP
          (fun q => if q.user_id == uid then false else q.is_creator) rest =
          List.countP (fun q => q.is_creator) rest := by
        refine List.countP_congr ?_
        intro q hq
        have hqu : (q.user_id == uid) = false := by
          rcases h : (q.user_id == uid) with - | -
          · rfl
          · exfalso
            apply hnd.1
            rw [hpid, ← show q.user_id = uid from by simpa using h]
            exact List.mem_map_of_mem Participant.user_id hq
        simp [hqu]
      rw [List.countP_cons, List.countP_cons, hrest]
      simp [ha, hcr]
    · have ha : (a.user_id == uid) = false := by
        rcases h : (a.user_id == uid) with - | -
        · rfl
        · exfalso
          apply hnd.1
          rw [show a.user_id = uid from by simpa using h, ← hpid]
          exact List.mem_map_of_mem Participant.user_id hp'
      have hrec := ih hnd.2 p hp' hpid hcr
      have h1 : List.countP
          (fun q => if q.user_id == uid then false else q.is_creator) (a :: rest) =
          List.countP (fun q => if q.user_id == uid then false else q.is_creator) rest +
            (if a.is_creator = true then 1 else 0) := by
        rw [List.countP_cons]
        congr 1
        simp [ha]
      have h2 : List.countP (fun q => q.is_creator) (a :: rest) =
          List.countP (fun q => q.is_creator) rest +
            (if a.is_creator = true then 1 else 0) := by
        rw [List.countP_cons]
      rw [h1, h2]
      omega

/-- C5 (amended): `add_participant` never duplicates a participant row
(on conflict it updates the row in place, leaving the id column
unchanged; otherwise it appends a fresh id), and every operation
maintains the per-event one-creator invariant except a creator re-join:
`create` is rejected while an event exists and otherwise establishes
exactly one creator; a join by anyone other than the creator,
`set_wishlist`, `set_address`, a successful `remove` (whose guard
restricts removal to non-creators) and a pairing regeneration all
preserve the number of creator-flagged rows; `cancel` deletes the event
altogether; but when the creator re-runs `join`, the upsert overwrites
their flag with `False`, leaving the event with no creator. -/
theorem one_creator_invariant_spec (db : DB) (uid nm : String)
    (hnd : (db.participants.map Participant.user_id).Nodup) :
    ((add_participant db uid nm false).participants.map Participant.user_id =
        db.participants.map Participant.user_id ∨
      ((add_participant db uid nm false).participants.map Participant.user_id =
        db.participants.map Participant.user_id ++ [uid] ∧
        uid ∉ db.participants.map Participant.user_id)) ∧
    (is_event_active db = true →
      create_secret_santa db uid nm = Except.error CmdError.eventAlreadyActive) ∧
    (is_event_active db = false →
      create_secret_santa db uid nm = Except.ok (add_participant db uid nm true) ∧
      creator_count (add_participant db uid nm true) = 1) ∧
    ((∀ p ∈ db.participants, p.user_id = uid → p.is_creator = false) →
      creator_count (add_participant db uid nm false) = creator_count db) ∧
    (∀ w, creator_count (set_wishlist db uid w) = creator_count db) ∧
    (∀ a, creator_count (set_address db uid a) = creator_count db) ∧
    (∀ adm cid tid db', remove_participant_cmd db adm cid tid = Except.ok db' →
      creator_count db' = creator_count db) ∧
    (∀ c fuel t db' ps, db_assign_partners db c fuel t = some (db', ps) →
      creator_count db' = creator_count db) ∧
    (is_event_active (cancel_secret_santa db) = false) ∧
    (∀ p ∈ db.participants, p.user_id = uid → p.is_creator = true →
      creator_count (add_participant db uid nm false) + 1 = creator_count db) := by
  refine ⟨add_participant_ids db uid nm false, ?_, ?_, ?_, ?_, ?_, ?_, ?_, rfl, ?_⟩
  · intro h
    simp [create_secret_santa, h]
  · intro h
    have hnil : db.participants = [] :=
      List.length_eq_zero.mp (Nat.eq_zero_of_not_pos (of_decide_eq_false h))
    have hpart : (add_participant db uid nm true).participants =
        db.participants ++ [⟨uid, nm, none, none, true⟩] := by
      unfold add_participant
      rw [if_neg (by rw [hnil]; simp)]
    refine ⟨by simp [create_secret_santa, h], ?_⟩
    unfold creator_count
    rw [hpart, hnil]
    rfl
  · intro hall
    by_cases hany : db.participants.any (fun p => p.user_id == uid) = true
    · rw [creator_count_update db uid nm false hany]
      unfold creator_count
      rw [← List.countP_eq_length_filter]
      refine List.countP_congr ?_
      intro q hq
      by_cases h : (q.user_id == uid) = true
      · have := hall q hq (by simpa using h)
        simp [h, this]
      · simp [h]
    · unfold creator_count add_participant
      rw [if_neg hany]
      simp
  · intro w
    unfold creator_count set_wishlist
    simp only [← List.countP_eq_length_filter, List.countP_map]
    refine List.countP_congr ?_
    intro p _
    by_cases h : (p.user_id == uid) = true <;> simp [h, Function.comp]
  · intro a
    unfold creator_count set_address
    simp only [← List.countP_eq_length_filter, List.countP_map]
    refine List.countP_congr ?_
    intro p _
    by_cases h : (p.user_id == uid) = true <;> simp [h, Function.comp]
  · intro adm cid tid db' hok
    simp only [remove_participant_cmd] at hok
    cases hadm : adm || is_creator_or_admin db cid with
    | false => rw [hadm] at hok; simp at hok
    | true =>
      rw [hadm] at hok
      simp only [Bool.not_true, Bool.false_eq_true, if_false] at hok
      cases hact : is_event_active db with
      | false => rw [hact] at hok; simp at hok
      | true =>
        rw [hact] at hok
        simp only [Bool.not_true, Bool.false_eq_true, if_false] at hok
        cases hcr : is_creator_or_admin db tid with
        | true => rw [hcr] at hok; simp at hok
        | false =>
          rw [hcr] at hok
          simp only [Bool.false_eq_true, if_false] at hok
          by_cases hany : db.participants.any (fun p => p.user_id == tid) = true
          · have hrm : db_remove_participant db tid = (true,
                { db with participants :=
                    db.participants.filter (fun p => p.user_id != tid) }) := by
              unfold db_remove_participant
              rw [if_pos hany]
            rw [hrm] at hok
            simp only [if_true, Except.ok.injEq] at hok
            obtain ⟨p0, hp0, hp0id⟩ := List.any_eq_true.mp hany
            have hfind : ∃ q, db.participants.find?
                (fun p => p.user_id == tid) = some q :=
              Option.isSome_iff_exists.mp (List.find?_isSome.mpr ⟨p0, hp0, hp0id⟩)
            obtain ⟨q, hq⟩ := hfind
            have hqmem : q ∈ db.participants := List.mem_of_find?_eq_some hq
            have hqid : q.user_id = tid := by simpa using List.find?_some hq
            have hqcr : q.is_creator = false := by
              unfold is_creator_or_admin at hcr
              rw [hq] at hcr
              exact hcr
            have hpoint : ∀ x ∈ db.participants,
                (x.is_creator && (x.user_id != tid)) = x.is_creator := by
              intro x hx
              by_cases hxid : x.user_id = tid
              · have hxq : x = q :=
                  List.inj_on_of_nodup_map hnd hx hqmem (by rw [hxid, hqid])
                simp [hxq, hqcr]
              · have hne : (x.user_id != tid) = true := bne_iff_ne.mpr hxid
                simp [hne]
            rw [← hok]
            show (List.filter (fun p => p.is_creator)
              (List.filter (fun p => p.user_id != tid) db.participants)).length =
              (List.filter (fun p => p.is_creator) db.participants).length
            rw [List.filter_filter, List.filter_congr hpoint]
          · have hrm : db_remove_participant db tid = (false, db) := by
              unfold db_remove_participant
              rw [if_neg hany]
            rw [hrm] at hok
            simp at hok
  · intro c fuel t db' ps h
    unfold db_assign_partners at h
    rcases ha : assign_partners c fuel t db.participants with - | ps'
    · rw [ha] at h
      simp at h
    · rw [ha] at h
      simp only [Option.some.injEq, Prod.mk.injEq] at h
      obtain ⟨h1, -⟩ := h
      rw [← h1]
      rfl
  · intro p hp hpid hcr
    have hany : db.participants.any (fun q => q.user_id == uid) = true :=
      List.any_eq_true.mpr ⟨p, hp, by simp [hpid]⟩
    rw [creator_count_update db uid nm false hany]
    unfold creator_count
    rw [← List.countP_eq_length_filter]
    exact countP_demote_creator uid db.participants hnd p hp hpid hcr

/-- Witness for `one_creator_invariant_spec`: the two-participant store
with creator `"a"`, exercising in particular the re-join exception. -/
theorem one_creator_invariant_spec_witness :
    ((add_participant demo_store "a" "A" false).participants.map Participant.user_id =
        demo_store.participants.map Participant.user_id ∨
      ((add_participant demo_store "a" "A" false).participants.map Participant.user_id =
        demo_store.participants.map Participant.user_id ++ ["a"] ∧
        "a" ∉ demo_store.participants.map Participant.user_id)) ∧
    (is_event_active demo_store = true →
      create_secret_santa demo_store "a" "A" =
        Except.error CmdError.eventAlreadyActive) ∧
    (is_event_active demo_store = false →
      create_secret_santa demo_store "a" "A" =
        Except.ok (add_participant demo_store "a" "A" true) ∧
      creator_count (add_participant demo_store "a" "A" true) = 1) ∧
    ((∀ p ∈ demo_store.participants, p.user_id = "a" → p.is_creator = false) →
      creator_count (add_participant demo_store "a" "A" false) =
        creator_count demo_store) ∧
    (∀ w, creator_count (set_wishlist demo_store "a" w) = creator_count demo_store) ∧
    (∀ a, creator_count (set_address demo_store "a" a) = creator_count demo_store) ∧
    (∀ adm cid tid db', remove_participant_cmd demo_store adm cid tid = Except.ok db' →
      creator_count db' = creator_count demo_store) ∧
    (∀ c fuel t db' ps, db_assign_partners demo_store c fuel t = some (db', ps) →
      creator_count db' = creator_count demo_store) ∧
    (is_event_active (cancel_secret_santa demo_store) = false) ∧
    (∀ p ∈ demo_store.participants, p.user_id = "a" → p.is_creator = true →
      creator_count (add_participant demo_store "a" "A" false) + 1 =
        creator_count demo_store) :=
  one_creator_invariant_spec demo_store "a" "A" (by decide)

/-! ## Mutations while the event is mid-confirmation (C6) -/

/-- C6 counterexample: while a `start` confirmation wait is pending (the
system is in `Confirming`, a pairing set generated and shown), a `join`
from a new user is not rejected with a state error — it is accepted and
mutates the participant set under the pending pairings. -/
theorem confirming_join_not_rejected :
    demo_confirming.confirming = true ∧
    dispatch_join demo_confirming "c" "C" = Except.ok
      ⟨⟨[demo_a, demo_b, ⟨"c", "C", none, none, false⟩],
        [⟨"a", "b"⟩, ⟨"b", "a"⟩]⟩, true⟩ ∧
    ([demo_a, demo_b, ⟨"c", "C", none, none, false⟩] : List Participant) ≠
      demo_confirming.db.participants :=
  ⟨rfl, rfl, by decide⟩

/-- C6 (amended): no handler consults the pending-confirmation state —
while the system is in `Confirming`, a mutating command such as `join` is
processed normally and applied to the store (here: the full upsert runs),
rather than being rejected with a `StateError` or queued. -/
theorem join_during_confirming_applied (s : SysState) (uid nm : String)
    (hconf : s.confirming = true) (hactive : is_event_active s.db = true) :
    dispatch_join s uid nm =
      Except.ok ⟨add_participant s.db uid nm false, true⟩ := by
  simp [dispatch_join, join_secret_santa, hactive, hconf]

/-- Witness for `join_during_confirming_applied` at the mid-confirmation
system state. -/
theorem join_during_confirming_applied_witness :
    dispatch_join demo_confirming "c" "C" =
      Except.ok ⟨add_participant demo_confirming.db "c" "C" false, true⟩ :=
  join_during_confirming_applied demo_confirming "c" "C" rfl (by decide)

/-! ## Start with missing wishlist/address (C8) -/

/-- C8: if some participant is missing a wishlist or an address, an
authorized `start` fails before the pairing engine runs — the store
(including the pairings table) is unchanged whatever the engine would
have produced — and (when the size check admits the event) the rejection
carries `check_missing_info`, which enumerates exactly the participants
with a missing field together with which of the two fields each one is
missing. -/
theorem start_missing_info_spec (db : DB) (adm : Bool) (cid : String)
    (gen : List Pairing) (p : Participant)
    (hauth : (adm || is_creator_or_admin db cid) = true)
    (hp : p ∈ db.participants)
    (hmiss : p.wishlist = none ∨ p.address = none) :
    (start_secret_santa db adm cid gen).1 = db ∧
    (start_secret_santa db adm cid gen).2 ≠ none ∧
    (2 ≤ db.participants.length →
      (start_secret_santa db adm cid gen).2 =
        some (CmdError.missingInfo (check_missing_info db))) ∧
    (∀ uid nm mw ma, (⟨uid, nm, mw, ma⟩ : MissingInfo) ∈ check_missing_info db ↔
      ∃ q ∈ db.participants, q.user_id = uid ∧ q.name = nm ∧
        (q.wishlist = none ∨ q.address = none) ∧
        mw = q.wishlist.isNone ∧ ma = q.address.isNone) := by
  have hfil : p ∈ db.participants.filter
      (fun q => q.wishlist.isNone || q.address.isNone) :=
    List.mem_filter.mpr ⟨hp, by rcases hmiss with h | h <;> simp [h]⟩
  have hne : check_missing_info db ≠ [] :=
    List.ne_nil_of_mem (List.mem_map_of_mem _ hfil)
  have hval : start_validate db adm cid = Except.error CmdError.tooFewParticipants ∨
      start_validate db adm cid =
        Except.error (CmdError.missingInfo (check_missing_info db)) := by
    unfold start_validate
    by_cases hlen : db.participants.length < 2
    · left
      simp [hauth, hlen]
    · right
      simp [hauth, hlen, hne]
  have hval2 : 2 ≤ db.participants.length →
      start_validate db adm cid =
        Except.error (CmdError.missingInfo (check_missing_info db)) := by
    intro hlen
    unfold start_validate
    simp [hauth, Nat.not_lt.mpr hlen, hne]
  refine ⟨?_, ?_, ?_, ?_⟩
  · unfold start_secret_santa
    rcases hval with h | h <;> rw [h]
  · unfold start_secret_santa
    rcases hval with h | h <;> rw [h] <;> simp
  · intro hlen
    unfold start_secret_santa
    rw [hval2 hlen]
  · intro uid nm mw ma
    simp only [check_missing_info, List.mem_map, List.mem_filter,
      MissingInfo.mk.injEq, Bool.or_eq_true, Option.isNone_iff_eq_none]
    constructor
    · rintro ⟨q, ⟨hq, hqmiss⟩, hqu, hqn, hqw, hqa⟩
      exact ⟨q, hq, hqu, hqn, hqmiss, hqw.symm, hqa.symm⟩
    · rintro ⟨q, hq, hqu, hqn, hqmiss, hqw, hqa⟩
      exact ⟨q, ⟨hq, by rcases hqmiss with h | h <;> simp [h]⟩, hqu, hqn,
        hqw.symm, hqa.symm⟩

/-- Witness for `start_missing_info_spec`: the store where `b` lacks a
wishlist, an admin caller, and an arbitrary engine output. -/
theorem start_missing_info_spec_witness :
    (start_secret_santa demo_missing_store true "a" [⟨"a", "b"⟩]).1 =
      demo_missing_store ∧
    (start_secret_santa demo_missing_store true "a" [⟨"a", "b"⟩]).2 ≠ none ∧
    (2 ≤ demo_missing_store.participants.length →
      (start_secret_santa demo_missing_store true "a" [⟨"a", "b"⟩]).2 =
        some (CmdError.missingInfo (check_missing_info demo_missing_store))) ∧
    (∀ uid nm mw ma,
      (⟨uid, nm, mw, ma⟩ : MissingInfo) ∈ check_missing_info demo_missing_store ↔
      ∃ q ∈ demo_missing_store.participants, q.user_id = uid ∧ q.name = nm ∧
        (q.wishlist = none ∨ q.address = none) ∧
        mw = q.wishlist.isNone ∧ ma = q.address.isNone) :=
  start_missing_info_spec demo_missing_store true "a" [⟨"a", "b"⟩]
    ⟨"b", "B", none, some "ab", false⟩ (by decide) (by decide) (Or.inl rfl)

/-! ## Rate limiter lemmas (C7, C10) -/

/-- The branch of `_check_rate_limit` taken when the retained count is
below the limit. -/
theorem check_rate_limit_allowed_case (st : RateLimiter) (uid : String) (now : ℚ)
    (hen : st.rate_limit_enabled = true)
    (hshort : ((st.user_command_history uid).filter
      (fun t => now - t < st.rate_limit_window)).length < st.rate_limit_commands) :
    check_rate_limit st uid now = ((false, 0),
      { st with user_command_history := fun u =>
          if u = uid
          then (st.user_command_history uid).filter (fun t => now - t < st.rate_limit_window) ++ [now]
          else st.user_command_history u }) := by
  simp only [check_rate_limit, hen, Bool.not_true, Bool.false_eq_true, if_false]
  rw [if_neg (Nat.not_le.mpr hshort)]

/-- The branch of `_check_rate_limit` taken when the retained count
reaches the limit. -/
theorem check_rate_limit_limited_case (st : RateLimiter) (uid : String) (now : ℚ)
    (hen : st.rate_limit_enabled = true)
    (hlong : st.rate_limit_commands ≤ ((st.user_command_history uid).filter
      (fun t => now - t < st.rate_limit_window)).length) :
    check_rate_limit st uid now = ((true,
        max 1 (pyInt (st.rate_limit_window - (now -
          ((st.user_command_history uid).filter
            (fun t => now - t < st.rate_limit_window)).min?.getD 0)))),
      { st with user_command_history := fun u =>
          if u = uid
          then (st.user_command_history uid).filter (fun t => now - t < st.rate_limit_window)
          else st.user_command_history u }) := by
  simp only [check_rate_limit, hen, Bool.not_true, Bool.false_eq_true, if_false]
  rw [if_pos hlong]

/-- A check whose whole history is retained and below the limit: the call
is allowed, `now` is appended, configuration untouched. -/
theorem allowed_run (uid : String) (pre : List ℚ) (now : ℚ) (st : RateLimiter)
    (hen : st.rate_limit_enabled = true) (hcmd : st.rate_limit_commands = 5)
    (hwin : st.rate_limit_window = 30)
    (hh : st.user_command_history uid = pre)
    (hkeep : ∀ t ∈ pre, now - t < 30) (hlen : pre.length < 5) :
    (check_rate_limit st uid now).1.1 = false ∧
    (check_rate_limit st uid now).2.user_command_history uid = pre ++ [now] ∧
    (check_rate_limit st uid now).2.rate_limit_enabled = true ∧
    (check_rate_limit st uid now).2.rate_limit_commands = 5 ∧
    (check_rate_limit st uid now).2.rate_limit_window = 30 := by
  have hfil : (st.user_command_history uid).filter
      (fun t => now - t < st.rate_limit_window) = pre := by
    rw [hh, hwin]
    exact List.filter_eq_self.mpr (fun a ha => decide_eq_true (hkeep a ha))
  have hshort : ((st.user_command_history uid).filter
      (fun t => now - t < st.rate_limit_window)).length < st.rate_limit_commands := by
    rw [hfil, hcmd]
    exact hlen
  rw [check_rate_limit_allowed_case st uid now hen hshort]
  refine ⟨rfl, ?_, hen, hcmd, hwin⟩
  simp [hfil]

/-- A check whose whole history is retained but already at the limit: the
call is denied, the history is stored unchanged, configuration
untouched. -/
theorem limited_run (uid : String) (pre : List ℚ) (now : ℚ) (st : RateLimiter)
    (hen : st.rate_limit_enabled = true) (hcmd : st.rate_limit_commands = 5)
    (hwin : st.rate_limit_window = 30)
    (hh : st.user_command_history uid = pre)
    (hkeep : ∀ t ∈ pre, now - t < 30) (hlen : 5 ≤ pre.length) :
    (check_rate_limit st uid now).1 =
      (true, max 1 (pyInt (30 - (now - pre.min?.getD 0)))) ∧
    (check_rate_limit st uid now).2.user_command_history uid = pre ∧
    (check_rate_limit st uid now).2.rate_limit_enabled = true ∧
    (check_rate_limit st uid now).2.rate_limit_commands = 5 ∧
    (check_rate_limit st uid now).2.rate_limit_window = 30 := by
  have hfil : (st.user_command_history uid).filter
      (fun t => now - t < st.rate_limit_window) = pre := by
    rw [hh, hwin]
    exact List.filter_eq_self.mpr (fun a ha => decide_eq_true (hkeep a ha))
  have hlong : st.rate_limit_commands ≤ ((st.user_command_history uid).filter
      (fun t => now - t < st.rate_limit_window)).length := by
    rw [hfil, hcmd]
    exact hlen
  rw [check_rate_limit_limited_case st uid now hen hlong]
  refine ⟨?_, ?_, hen, hcmd, hwin⟩
  · rw [hfil, hwin]
  · simp [hfil]

/-- A check after the oldest retained entry has aged out of the window:
with at most four newer entries left, the call is allowed again and `now`
is recorded. -/
theorem allowed_after_eviction (uid : String) (now x : ℚ) (rest : List ℚ)
    (st : RateLimiter)
    (hen : st.rate_limit_enabled = true) (hcmd : st.rate_limit_commands = 5)
    (hwin : st.rate_limit_window = 30)
    (hh : st.user_command_history uid = x :: rest)
    (hx : ¬ now - x < 30) (hrest : rest.length < 5) :
    (check_rate_limit st uid now).1.1 = false ∧
    now ∈ (check_rate_limit st uid now).2.user_command_history uid := by
  have hfil : (st.user_command_history uid).filter
      (fun t => now - t < st.rate_limit_window) =
      rest.filter (fun t => now - t < (30 : ℚ)) := by
    rw [hh, hwin]
    exact List.filter_cons_of_neg (by simpa using hx)
  have hshort : ((st.user_command_history uid).filter
      (fun t => now - t < st.rate_limit_window)).length < st.rate_limit_commands := by
    rw [hfil, hcmd]
    exact Nat.lt_of_le_of_lt (List.length_filter_le _ rest) hrest
  rw [check_rate_limit_allowed_case st uid now hen hshort]
  refine ⟨rfl, ?_⟩
  simp

/-- C7: with the default configuration (5 commands per 30 seconds), five
checks of one caller are allowed; a 6th check within 30 seconds of the
first is denied with `retryAfterSeconds = max 1 (int(30 - (now -
oldest)))` computed from the oldest retained timestamp `t1`; and once 30
seconds have elapsed since `t1`, the caller's next check is allowed again
and its timestamp recorded. -/
theorem rate_limit_sixth_check (uid : String) (t1 t2 t3 t4 t5 t6 t7 : ℚ)
    (h12 : t1 ≤ t2) (h23 : t2 ≤ t3) (h34 : t3 ≤ t4) (h45 : t4 ≤ t5)
    (h56 : t5 ≤ t6) (h61 : t6 - t1 < 30) (h67 : t6 ≤ t7) (h71 : 30 ≤ t7 - t1) :
    (check_rate_limit (run_checks initial_rate_limiter uid []) uid t1).1.1 = false ∧
    (check_rate_limit (run_checks initial_rate_limiter uid [t1]) uid t2).1.1 = false ∧
    (check_rate_limit (run_checks initial_rate_limiter uid [t1, t2]) uid t3).1.1 = false ∧
    (check_rate_limit (run_checks initial_rate_limiter uid [t1, t2, t3]) uid t4).1.1 = false ∧
    (check_rate_limit (run_checks initial_rate_limiter uid [t1, t2, t3, t4]) uid t5).1.1 = false ∧
    (check_rate_limit (run_checks initial_rate_limiter uid [t1, t2, t3, t4, t5]) uid t6).1 =
      (true, max 1 (pyInt (30 - (t6 - t1)))) ∧
    (check_rate_limit (run_checks initial_rate_limiter uid [t1, t2, t3, t4, t5, t6])
      uid t7).1.1 = false ∧
    t7 ∈ (check_rate_limit (run_checks initial_rate_limiter uid [t1, t2, t3, t4, t5, t6])
      uid t7).2.user_command_history uid := by
  obtain ⟨a1, h1, e1, c1, w1⟩ :=
    allowed_run uid [] t1 (run_checks initial_rate_limiter uid [])
      rfl rfl rfl rfl (by intro x hx; exact absurd hx (List.not_mem_nil x)) (by simp)
  obtain ⟨a2, h2, e2, c2, w2⟩ :=
    allowed_run uid [t1] t2 (run_checks initial_rate_limiter uid [t1])
      e1 c1 w1 h1
      (by intro x hx
          rw [List.mem_singleton] at hx
          subst hx
          linarith)
      (by simp)
  obtain ⟨a3, h3, e3, c3, w3⟩ :=
    allowed_run uid [t1, t2] t3 (run_checks initial_rate_limiter uid [t1, t2])
      e2 c2 w2 h2
      (by intro x hx
          simp only [List.mem_cons, List.not_mem_nil, or_false] at hx
          rcases hx with rfl | rfl <;> linarith)
      (by simp)
  obtain ⟨a4, h4, e4, c4, w4⟩ :=
    allowed_run uid [t1, t2, t3] t4 (run_checks initial_rate_limiter uid [t1, t2, t3])
      e3 c3 w3 h3
      (by intro x hx
          simp only [List.mem_cons, List.not_mem_nil, or_false] at hx
          rcases hx with rfl | rfl | rfl <;> linarith)
      (by simp)
  obtain ⟨a5, h5, e5, c5, w5⟩ :=
    allowed_run uid [t1, t2, t3, t4] t5
      (run_checks initial_rate_limiter uid [t1, t2, t3, t4])
      e4 c4 w4 h4
      (by intro x hx
          simp only [List.mem_cons, List.not_mem_nil, or_false] at hx
          rcases hx with rfl | rfl | rfl | rfl <;> linarith)
      (by simp)
  obtain ⟨p6, h6, e6, c6, w6⟩ :=
    limited_run uid [t1, t2, t3, t4, t5] t6
      (run_checks initial_rate_limiter uid [t1, t2, t3, t4, t5])
      e5 c5 w5 h5
      (by intro x hx
          simp only [List.mem_cons, List.not_mem_nil, or_false] at hx
          rcases hx with rfl | rfl | rfl | rfl | rfl <;> linarith)
      (by simp)
  have hmin : ([t1, t2, t3, t4, t5] : List ℚ).min? = some t1 := by
    rw [List.min?_cons']
    simp only [List.foldl_cons, List.foldl_nil]
    rw [min_eq_left h12, min_eq_left (h12.trans h23),
      min_eq_left ((h12.trans h23).trans h34),
      min_eq_left (((h12.trans h23).trans h34).trans h45)]
  obtain ⟨a7, m7⟩ :=
    allowed_after_eviction uid t7 t1 [t2, t3, t4, t5]
      (run_checks initial_rate_limiter uid [t1, t2, t3, t4, t5, t6])
      e6 c6 w6 h6 (not_lt.mpr (by linarith)) (by simp)
  refine ⟨a1, a2, a3, a4, a5, ?_, a7, m7⟩
  rw [p6, hmin]
  rfl

/-- Witness for `rate_limit_sixth_check` at the concrete times
`0, 1, 2, 3, 4, 5` and `30`. -/
theorem rate_limit_sixth_check_witness :
    (check_rate_limit (run_checks initial_rate_limiter "u" []) "u" 0).1.1 = false ∧
    (check_rate_limit (run_checks initial_rate_limiter "u" [0]) "u" 1).1.1 = false ∧
    (check_rate_limit (run_checks initial_rate_limiter "u" [0, 1]) "u" 2).1.1 = false ∧
    (check_rate_limit (run_checks initial_rate_limiter "u" [0, 1, 2]) "u" 3).1.1 = false ∧
    (check_rate_limit (run_checks initial_rate_limiter "u" [0, 1, 2, 3]) "u" 4).1.1 = false ∧
    (check_rate_limit (run_checks initial_rate_limiter "u" [0, 1, 2, 3, 4]) "u" 5).1 =
      (true, max 1 (pyInt (30 - (5 - 0)))) ∧
    (check_rate_limit (run_checks initial_rate_limiter "u" [0, 1, 2, 3, 4, 5])
      "u" 30).1.1 = false ∧
    (30 : ℚ) ∈ (check_rate_limit (run_checks initial_rate_limiter "u" [0, 1, 2, 3, 4, 5])
      "u" 30).2.user_command_history "u" :=
  rate_limit_sixth_check "u" 0 1 2 3 4 5 30
    (by norm_num) (by norm_num) (by norm_num) (by norm_num) (by norm_num)
    (by norm_num) (by norm_num) (by norm_num)

/-- The first component of a check depends only on the configuration and
on the caller's post-eviction history. -/
theorem check_rate_limit_fst_congr (st₁ st₂ : RateLimiter) (uid : String) (t' : ℚ)
    (hen : st₁.rate_limit_enabled = st₂.rate_limit_enabled)
    (hcmd : st₁.rate_limit_commands = st₂.rate_limit_commands)
    (hwin : st₁.rate_limit_window = st₂.rate_limit_window)
    (hh : (st₁.user_command_history uid).filter
        (fun t => t' - t < st₂.rate_limit_window) =
      (st₂.user_command_history uid).filter
        (fun t => t' - t < st₂.rate_limit_window)) :
    (check_rate_limit st₁ uid t').1 = (check_rate_limit st₂ uid t').1 := by
  simp only [check_rate_limit]
  rw [hen, hwin, hh, hcmd]
  cases he : st₂.rate_limit_enabled with
  | false => simp [he]
  | true =>
    by_cases hc : st₂.rate_limit_commands ≤ ((st₂.user_command_history uid).filter
        (fun t => t' - t < st₂.rate_limit_window)).length
    · simp [he, hc]
    · simp [he, hc]

/-- When a caller's history holds exactly `maxCommands` timestamps with
minimum `m`, a check at `t'` is allowed iff the window has elapsed since
`m`. -/
theorem allowed_iff_min_aged (st : RateLimiter) (uid : String) (t' m : ℚ)
    (hen : st.rate_limit_enabled = true)
    (hcnt : (st.user_command_history uid).length = st.rate_limit_commands)
    (hm : (st.user_command_history uid).min? = some m) :
    ((check_rate_limit st uid t').1.1 = false ↔
      st.rate_limit_window ≤ t' - m) := by
  have hmem : m ∈ st.user_command_history uid :=
    List.min?_mem (fun a b : ℚ => min_choice a b) hm
  have hmle : ∀ b ∈ st.user_command_history uid, m ≤ b :=
    fun b hb => (List.le_min?_iff (fun a b c : ℚ => le_min_iff) hm).1 (le_refl m) b hb
  by_cases hc : st.rate_limit_commands ≤ ((st.user_command_history uid).filter
      (fun t => t' - t < st.rate_limit_window)).length
  · rw [check_rate_limit_limited_case st uid t' hen hc]
    have hflen : (((st.user_command_history uid).filter
        (fun t => t' - t < st.rate_limit_window))).length =
        (st.user_command_history uid).length :=
      le_antisymm (List.length_filter_le _ _) (hcnt ▸ hc)
    have hall := List.filter_length_eq_length.mp hflen
    simp only [Bool.true_eq_false, false_iff]
    exact not_le.mpr (of_decide_eq_true (hall m hmem))
  · rw [check_rate_limit_allowed_case st uid t' hen (Nat.not_le.mp hc)]
    simp only [true_iff]
    have hlt : (((st.user_command_history uid).filter
        (fun t => t' - t < st.rate_limit_window))).length <
        (st.user_command_history uid).length := hcnt ▸ Nat.not_le.mp hc
    have hnall : ¬ ∀ a ∈ st.user_command_history uid,
        (decide (t' - a < st.rate_limit_window)) = true := by
      intro hall
      exact Nat.ne_of_lt hlt (List.filter_length_eq_length.mpr hall)
    push_neg at hnall
    obtain ⟨a, ha, hpa⟩ := hnall
    have haw : st.rate_limit_window ≤ t' - a := by
      by_contra hno
      exact hpa (decide_eq_true (not_le.mp hno))
    have := hmle a ha
    linarith

/-- C10: a denied check records nothing for the caller — the stored
history is a sub-history of the old one (the evicted-entry cleanup only),
other callers' histories are untouched, the outcome of any later check is
exactly what it would have been without the denied attempt, and — when
the retained history holds exactly `maxCommands` timestamps with minimum
`m` — a subsequent check is allowed precisely when the window has elapsed
since `m`. -/
theorem denied_check_no_record (st : RateLimiter) (uid : String) (now : ℚ)
    (hlim : (check_rate_limit st uid now).1.1 = true) :
    ((check_rate_limit st uid now).2.user_command_history uid).Sublist
      (st.user_command_history uid) ∧
    (∀ u, u ≠ uid → (check_rate_limit st uid now).2.user_command_history u =
      st.user_command_history u) ∧
    (∀ t', now ≤ t' →
      (check_rate_limit (check_rate_limit st uid now).2 uid t').1 =
        (check_rate_limit st uid t').1) ∧
    (((check_rate_limit st uid now).2.user_command_history uid).length =
        st.rate_limit_commands →
      ∀ m, ((check_rate_limit st uid now).2.user_command_history uid).min? = some m →
      ∀ t', ((check_rate_limit (check_rate_limit st uid now).2 uid t').1.1 = false ↔
        st.rate_limit_window ≤ t' - m)) := by
  cases hb : st.rate_limit_enabled with
  | false =>
    exfalso
    simp [check_rate_limit, hb] at hlim
  | true =>
    by_cases hlong : st.rate_limit_commands ≤ ((st.user_command_history uid).filter
        (fun t => now - t < st.rate_limit_window)).length
    · have heq := check_rate_limit_limited_case st uid now hb hlong
      have hH : (check_rate_limit st uid now).2.user_command_history uid =
          (st.user_command_history uid).filter
            (fun t => now - t < st.rate_limit_window) := by
        rw [heq]
        exact if_pos rfl
      have hen1 : (check_rate_limit st uid now).2.rate_limit_enabled = true := by
        rw [heq]
        exact hb
      have hcmd1 : (check_rate_limit st uid now).2.rate_limit_commands =
          st.rate_limit_commands := by rw [heq]
      have hwin1 : (check_rate_limit st uid now).2.rate_limit_window =
          st.rate_limit_window := by rw [heq]
      refine ⟨?_, ?_, ?_, ?_⟩
      · rw [hH]
        exact List.filter_sublist _
      · intro u hu
        rw [heq]
        exact if_neg hu
      · intro t' hle
        refine check_rate_limit_fst_congr _ _ uid t' (by rw [hen1, hb]) hcmd1 hwin1 ?_
        rw [hH, List.filter_filter]
        refine List.filter_congr ?_
        intro a _
        by_cases hpa : t' - a < st.rate_limit_window
        · have h2 : now - a < st.rate_limit_window := lt_of_le_of_lt (by linarith) hpa
          simp [hpa, h2]
        · simp [hpa]
      · intro hcnt m hm t'
        have hcnt1 : ((check_rate_limit st uid now).2.user_command_history uid).length =
            (check_rate_limit st uid now).2.rate_limit_commands := by
          rw [hcmd1]
          exact hcnt
        have hiff := allowed_iff_min_aged (check_rate_limit st uid now).2 uid t' m
          hen1 hcnt1 hm
        rw [hwin1] at hiff
        exact hiff
    · exfalso
      rw [check_rate_limit_allowed_case st uid now hb (Nat.not_le.mp hlong)] at hlim
      simp at hlim

/-- Witness for `denied_check_no_record`: a limiter with one allowed
command per 30 seconds whose caller has one recorded timestamp, checked
again 10 seconds later. -/
theorem denied_check_no_record_witness :
    ((check_rate_limit ⟨true, 1, 30, fun _ => [0]⟩ "u" 10).2.user_command_history "u").Sublist
      ((⟨true, 1, 30, fun _ => [0]⟩ : RateLimiter).user_command_history "u") ∧
    (∀ u, u ≠ "u" → (check_rate_limit ⟨true, 1, 30, fun _ => [0]⟩ "u" 10).2.user_command_history u =
      (⟨true, 1, 30, fun _ => [0]⟩ : RateLimiter).user_command_history u) ∧
    (∀ t', (10 : ℚ) ≤ t' →
      (check_rate_limit (check_rate_limit ⟨true, 1, 30, fun _ => [0]⟩ "u" 10).2 "u" t').1 =
        (check_rate_limit ⟨true, 1, 30, fun _ => [0]⟩ "u" t').1) ∧
    (((check_rate_limit ⟨true, 1, 30, fun _ => [0]⟩ "u" 10).2.user_command_history "u").length =
        (⟨true, 1, 30, fun _ => [0]⟩ : RateLimiter).rate_limit_commands →
      ∀ m, ((check_rate_limit ⟨true, 1, 30, fun _ => [0]⟩ "u" 10).2.user_command_history "u").min? = some m →
      ∀ t', ((check_rate_limit (check_rate_limit ⟨true, 1, 30, fun _ => [0]⟩ "u" 10).2 "u" t').1.1 = false ↔
        (⟨true, 1, 30, fun _ => [0]⟩ : RateLimiter).rate_limit_window ≤ t' - m)) :=
  denied_check_no_record ⟨true, 1, 30, fun _ => [0]⟩ "u" 10
    (by rw [check_rate_limit_limited_case ⟨true, 1, 30, fun _ => [0]⟩ "u" 10 rfl
          (by norm_num [List.filter])])

/-! ## The anonymous relay (C9) -/

/-- C9: the text delivered to the counterpart depends only on the message
and the direction — for any two senders it is character-identical — and it
is exactly a role-labeled preamble, the text, and a reply hint naming the
inverse direction.  The sender's identity never reaches the delivered
text. -/
theorem relay_text_sender_independent (s1 s2 : String) (dir : Direction)
    (msg : String) :
    relay_delivered_text s1 dir msg = relay_delivered_text s2 dir msg ∧
    relay_delivered_text s1 Direction.toGifter msg =
      "🎄 Your giftee sent you a message:" ++ "\n\n" ++ msg ++ "\n\n" ++
        "To reply, use: `" ++ "s!message giftee" ++ " <your message>`" ∧
    relay_delivered_text s1 Direction.toGiftee msg =
      "🎁 Your Secret Santa sent you a message:" ++ "\n\n" ++ msg ++ "\n\n" ++
        "To reply, use: `" ++ "s!message gifter" ++ " <your message>`" := by
  refine ⟨?_, rfl, rfl⟩
  cases dir <;> rfl

end SecretSanta
